import Mathlib

/-!
Shallow embedding of the vigilhome alert pipeline.

Covered source files:
* `src/alert_deduplication.py` — `DetectionState`, `AlertDeduplicator`
  (`should_alert`, `mark_left`, `cleanup_old`);
* `src/smart_alerts.py` — `SmartAlertManager` (`process_detection`,
  `_is_new_person`, `_has_person_left`, `_track_person`, `_remove_person`,
  `_should_alert_unknown`, `_is_quiet_hours`, `_is_emergency`);
* `src/behavioral_analyzer.py` — `BehavioralAnalyzer`
  (`record_movement`, `build_baseline`, `detect_anomaly`,
  `has_sufficient_baseline`).

Modelling conventions: wall-clock instants are integer seconds (`Int`),
time-of-day values are minutes since midnight (`Nat`), Python `dict`s are
association lists with the first binding authoritative, Python floats are
rationals (every arithmetic operation involved — sums, divisions by
constants, squaring, `min` — is exact here), and Euclidean-distance
comparisons against the `0.3` threshold are performed on squared
distances, which is equivalent because both sides are nonnegative.
-/

namespace VigilHome

/-! ### Association-list primitives standing in for Python dicts -/

/-- `d.get(k)` on a Python dict modelled as an association list. -/
def alookup {β : Type} : List (String × β) → String → Option β
  | [], _ => none
  | (k, v) :: rest, key => if k = key then some v else alookup rest key

/-- `d[k] = v`: replace the binding if the key is present, append otherwise. -/
def aset {β : Type} : List (String × β) → String → β → List (String × β)
  | [], key, v => [(key, v)]
  | (k, w) :: rest, key, v =>
    if k = key then (k, v) :: rest else (k, w) :: aset rest key v

/-- `del d[k]` (removing every binding for the key; dicts hold at most one). -/
def aremove {β : Type} (m : List (String × β)) (key : String) : List (String × β) :=
  m.filter (fun p => p.1 ≠ key)

theorem alookup_aset_self {β : Type} (m : List (String × β)) (k : String) (v : β) :
    alookup (aset m k v) k = some v := by
  induction m with
  | nil => simp [aset, alookup]
  | cons hd tl ih =>
    obtain ⟨k', w⟩ := hd
    by_cases h : k' = k <;> simp [aset, alookup, h, ih]

theorem alookup_aset_ne {β : Type} (m : List (String × β)) (k k' : String) (v : β)
    (h : k ≠ k') : alookup (aset m k v) k' = alookup m k' := by
  induction m with
  | nil => simp [aset, alookup, h]
  | cons hd tl ih =>
    obtain ⟨k₀, w⟩ := hd
    by_cases h₀ : k₀ = k
    · subst h₀
      simp [aset, alookup, h]
    · simp [aset, alookup, h₀, ih]

theorem alookup_aremove_self {β : Type} (m : List (String × β)) (k : String) :
    alookup (aremove m k) k = none := by
  induction m with
  | nil => simp [aremove, alookup]
  | cons hd tl ih =>
    obtain ⟨k', w⟩ := hd
    by_cases h : k' = k
    · simpa [aremove, List.filter, h] using ih
    · simpa [aremove, List.filter, alookup, h] using ih

theorem alookup_eq_none_iff {β : Type} (m : List (String × β)) (k : String) :
    alookup m k = none ↔ k ∉ m.map Prod.fst := by
  induction m with
  | nil => simp [alookup]
  | cons hd tl ih =>
    obtain ⟨k', w⟩ := hd
    rw [List.map_cons, List.mem_cons]
    by_cases h : k' = k
    · subst h
      simp [alookup]
    · rw [show alookup ((k', w) :: tl) k = alookup tl k from by
        simp [alookup, h], ih]
      constructor
      · intro hk hor
        rcases hor with h₁ | h₁
        · exact h h₁.symm
        · exact hk h₁
      · intro hk h₁
        exact hk (Or.inr h₁)

theorem keys_aset_of_mem {β : Type} (m : List (String × β)) (k : String) (v : β)
    (h : k ∈ m.map Prod.fst) : (aset m k v).map Prod.fst = m.map Prod.fst := by
  induction m with
  | nil => simp at h
  | cons hd tl ih =>
    obtain ⟨k', w⟩ := hd
    rw [List.map_cons] at h
    by_cases hk : k' = k
    · simp [aset, hk]
    · have h' : k ∈ tl.map Prod.fst := by
        rcases List.mem_cons.mp h with h₁ | h₁
        · exact (hk h₁.symm).elim
        · exact h₁
      simp [aset, hk, ih h']

theorem keys_aset_of_not_mem {β : Type} (m : List (String × β)) (k : String) (v : β)
    (h : k ∉ m.map Prod.fst) : (aset m k v).map Prod.fst = m.map Prod.fst ++ [k] := by
  induction m with
  | nil => simp [aset]
  | cons hd tl ih =>
    obtain ⟨k', w⟩ := hd
    by_cases hk : k' = k
    · refine absurd ?_ h
      rw [List.map_cons, hk]
      exact List.mem_cons_self _ _
    · have h' : k ∉ tl.map Prod.fst := fun hm => h (by
        rw [List.map_cons]
        exact List.mem_cons_of_mem _ hm)
      simp [aset, hk, ih h']

theorem keys_aset_nodup {β : Type} (m : List (String × β)) (k : String) (v : β)
    (h : (m.map Prod.fst).Nodup) : ((aset m k v).map Prod.fst).Nodup := by
  by_cases hk : k ∈ m.map Prod.fst
  · rw [keys_aset_of_mem m k v hk]; exact h
  · rw [keys_aset_of_not_mem m k v hk]
    refine List.Nodup.append h (List.nodup_singleton k) ?_
    intro a ha hb
    rw [List.mem_singleton] at hb
    exact hk (hb ▸ ha)

theorem aremove_sublist {β : Type} (m : List (String × β)) (k : String) :
    (aremove m k).Sublist m :=
  List.filter_sublist m

theorem keys_aremove_nodup {β : Type} (m : List (String × β)) (k : String)
    (h : (m.map Prod.fst).Nodup) : ((aremove m k).map Prod.fst).Nodup :=
  List.Nodup.sublist ((aremove_sublist m k).map Prod.fst) h

/-! ### `src/alert_deduplication.py` -/

/-- `DetectionState` (alert_deduplication.py, lines 7–13): per-camera record of
the tracked person, the co-occurring non-person object classes, the last-seen
instant and the cumulative alert counter. -/
structure DetectionState where
  person_name : String
  objects : Finset String
  last_seen : Int
  alert_count : Nat
deriving DecidableEq

/-- `AlertDeduplicator.active_detections`: camera name → live detection state. -/
abbrev DetectionMap := List (String × DetectionState)

/-- `set(obj['class'] for obj in objects if obj['class'] != 'person')`
(alert_deduplication.py, line 45); the input is the list of object class
labels of the detections. -/
def currentObjects (objects : List String) : Finset String :=
  (objects.filter (fun c => c ≠ "person")).toFinset

/-- `AlertDeduplicator.should_alert` (alert_deduplication.py, lines 34–89).
Returns the decision together with the updated `active_detections` map. -/
def should_alert (cooldown : Int) (m : DetectionMap) (camera person : String)
    (objects : List String) (current_time : Int) : Bool × DetectionMap :=
  let current_objects := currentObjects objects
  match alookup m camera with
  | some state =>
    if state.person_name = person then
      if currentObjects objects \ state.objects ≠ ∅ then
        -- new objects appeared
        (true, aset m camera
          ⟨state.person_name, current_objects, current_time, state.alert_count⟩)
      else if current_time - state.last_seen > cooldown then
        -- "still here" reminder past the cooldown
        (true, aset m camera
          ⟨state.person_name, state.objects, current_time, state.alert_count⟩)
      else
        -- same person, same objects, within cooldown
        (false, aset m camera
          ⟨state.person_name, state.objects, current_time, state.alert_count⟩)
    else
      -- person changed: overwrite state, bump alert counter
      (true, aset m camera
        ⟨person, current_objects, current_time, state.alert_count + 1⟩)
  | none =>
    -- new detection for this camera
    (true, aset m camera ⟨person, current_objects, current_time, 1⟩)

/-- `AlertDeduplicator.mark_left` (alert_deduplication.py, lines 91–94). -/
def mark_left (m : DetectionMap) (camera : String) : DetectionMap :=
  aremove m camera

/-- `AlertDeduplicator.cleanup_old` (alert_deduplication.py, lines 105–116):
drop every state older than `max_age_seconds`. -/
def cleanup_old (m : DetectionMap) (current_time max_age_seconds : Int) : DetectionMap :=
  m.filter (fun p => current_time - p.2.last_seen ≤ max_age_seconds)

/-- Feed a sequence of observations (time, object classes) of one person at one
camera through `should_alert`, collecting the returned decisions. -/
def processSeq (cooldown : Int) (camera person : String) :
    DetectionMap → List (Int × List String) → List Bool
  | _, [] => []
  | m, (t, objs) :: rest =>
    (should_alert cooldown m camera person objs t).fst ::
      processSeq cooldown camera person
        (should_alert cooldown m camera person objs t).snd rest

/-- Each observation happens no earlier than, and within `cooldown` seconds of,
the previous one (the running head time is the previous observation's time). -/
def withinChain (cooldown : Int) : Int → List (Int × List String) → Prop
  | _, [] => True
  | tprev, (t, _) :: rest =>
      tprev ≤ t ∧ t - tprev ≤ cooldown ∧ withinChain cooldown t rest

instance withinChainDecidable (cooldown : Int) (t : Int)
    (obs : List (Int × List String)) : Decidable (withinChain cooldown t obs) := by
  induction obs generalizing t with
  | nil => exact .isTrue trivial
  | cons hd tl ih =>
    obtain ⟨t', objs⟩ := hd
    have := ih t'
    unfold withinChain
    infer_instance

/-- Every observation's non-person object-class set is contained in `base`. -/
def objectsCovered (base : Finset String) (obs : List (Int × List String)) : Prop :=
  ∀ p ∈ obs, currentObjects p.2 ⊆ base

instance objectsCoveredDecidable (base : Finset String)
    (obs : List (Int × List String)) : Decidable (objectsCovered base obs) := by
  unfold objectsCovered
  infer_instance

theorem processSeq_all_false (cooldown : Int) (camera person : String)
    (S0 : Finset String) :
    ∀ (obs : List (Int × List String)) (m : DetectionMap) (tprev : Int) (cnt : Nat),
      alookup m camera = some ⟨person, S0, tprev, cnt⟩ →
      withinChain cooldown tprev obs →
      objectsCovered S0 obs →
      processSeq cooldown camera person m obs = List.replicate obs.length false := by
  intro obs
  induction obs with
  | nil => intro m tprev cnt _ _ _; simp [processSeq]
  | cons hd tl ih =>
    obtain ⟨t, objs⟩ := hd
    intro m tprev cnt hlook hchain hcov
    obtain ⟨hle, hwin, hchain'⟩ := hchain
    have hsub : currentObjects objs ⊆ S0 := hcov (t, objs) (by simp)
    have hdiff : currentObjects objs \ S0 = ∅ :=
      Finset.sdiff_eq_empty_iff_subset.mpr hsub
    have hstep : should_alert cooldown m camera person objs t =
        (false, aset m camera ⟨person, S0, t, cnt⟩) := by
      simp only [should_alert, hlook]
      simp [hdiff, not_lt.mpr hwin]
    have hlook' : alookup (aset m camera ⟨person, S0, t, cnt⟩) camera =
        some ⟨person, S0, t, cnt⟩ := alookup_aset_self m camera _
    have hcov' : objectsCovered S0 tl := fun p hp => hcov p (by simp [hp])
    simp only [processSeq, hstep, List.length_cons, List.replicate_succ]
    exact congrArg (List.cons false) (ih _ t cnt hlook' hchain' hcov')

/-- C1: a first observation of a subject at an untracked camera alerts
(`Arrived`); every subsequent observation of the same subject at the same
camera that stays within the cooldown window of its predecessor and brings no
object class outside the initially tracked set returns `False` (`Unchanged`). -/
theorem c1_dedup_unchanged_after_arrival (cooldown : Int) (camera person : String)
    (m : DetectionMap) (t0 : Int) (objs0 : List String)
    (obs : List (Int × List String))
    (hfresh : alookup m camera = none)
    (hchain : withinChain cooldown t0 obs)
    (hcov : objectsCovered (currentObjects objs0) obs) :
    (should_alert cooldown m camera person objs0 t0).fst = true ∧
    processSeq cooldown camera person
        (should_alert cooldown m camera person objs0 t0).snd obs =
      List.replicate obs.length false := by
  have hstep : should_alert cooldown m camera person objs0 t0 =
      (true, aset m camera ⟨person, currentObjects objs0, t0, 1⟩) := by
    simp [should_alert, hfresh]
  refine ⟨by simp [hstep], ?_⟩
  rw [hstep]
  exact processSeq_all_false cooldown camera person (currentObjects objs0) obs _ t0 1
    (alookup_aset_self m camera _) hchain hcov

/-- Concrete instantiation of `c1_dedup_unchanged_after_arrival`: person
"ana" at camera "hall" carrying a book, then two follow-ups within 300 s. -/
theorem c1_witness :
    (should_alert 300 [] "hall" "ana" ["book"] 0).fst = true ∧
    processSeq 300 "hall" "ana" (should_alert 300 [] "hall" "ana" ["book"] 0).snd
        [(100, ["book"]), (250, [])] = List.replicate 2 false :=
  c1_dedup_unchanged_after_arrival 300 "hall" "ana" [] 0 ["book"]
    [(100, ["book"]), (250, [])] rfl (by decide) (by decide)

/-- The mutating entry points of `AlertDeduplicator`. -/
inductive DedupOp where
  | observe (camera person : String) (objects : List String) (t : Int)
  | markLeft (camera : String)
  | cleanup (t maxAge : Int)

/-- Apply one `AlertDeduplicator` call to the `active_detections` map. -/
def applyOp (cooldown : Int) (m : DetectionMap) : DedupOp → DetectionMap
  | .observe camera person objs t => (should_alert cooldown m camera person objs t).snd
  | .markLeft camera => mark_left m camera
  | .cleanup t maxAge => cleanup_old m t maxAge

/-- Run a sequence of `AlertDeduplicator` calls from a starting map. -/
def runOps (cooldown : Int) (m : DetectionMap) (ops : List DedupOp) : DetectionMap :=
  ops.foldl (applyOp cooldown) m

theorem applyOp_keys_nodup (cooldown : Int) (m : DetectionMap) (op : DedupOp)
    (h : (m.map Prod.fst).Nodup) : ((applyOp cooldown m op).map Prod.fst).Nodup := by
  cases op with
  | observe camera person objs t =>
    show (((should_alert cooldown m camera person objs t).snd).map Prod.fst).Nodup
    unfold should_alert
    cases hl : alookup m camera with
    | none =>
      dsimp only
      exact keys_aset_nodup m camera _ h
    | some state =>
      dsimp only
      split
      · split
        · exact keys_aset_nodup m camera _ h
        · split
          · exact keys_aset_nodup m camera _ h
          · exact keys_aset_nodup m camera _ h
      · exact keys_aset_nodup m camera _ h
  | markLeft camera => exact keys_aremove_nodup m camera h
  | cleanup t maxAge =>
    exact List.Nodup.sublist ((List.filter_sublist m).map Prod.fst) h

theorem runOps_keys_nodup (cooldown : Int) (ops : List DedupOp) :
    ∀ m : DetectionMap, (m.map Prod.fst).Nodup →
      ((runOps cooldown m ops).map Prod.fst).Nodup := by
  induction ops with
  | nil => intro m h; exact h
  | cons op rest ih =>
    intro m h
    exact ih (applyOp cooldown m op) (applyOp_keys_nodup cooldown m op h)

/-- C8: starting from an empty deduplicator, any sequence of `should_alert`,
`mark_left` and `cleanup_old` calls leaves at most one live detection state per
camera (the camera keys of `active_detections` stay pairwise distinct), and a
`should_alert` call observing a different subject at a tracked camera replaces
that camera's state in place — overwriting the subject and object set,
incrementing the alert counter, and leaving the key set of the map unchanged —
rather than creating a second state. -/
theorem c8_one_state_per_camera (cooldown : Int) (ops : List DedupOp) :
    ((runOps cooldown [] ops).map Prod.fst).Nodup ∧
    (∀ (m : DetectionMap) (camera person : String) (objects : List String)
       (t : Int) (st : DetectionState),
       alookup m camera = some st → st.person_name ≠ person →
       should_alert cooldown m camera person objects t =
         (true, aset m camera
           ⟨person, currentObjects objects, t, st.alert_count + 1⟩) ∧
       (aset m camera
           ⟨person, currentObjects objects, t, st.alert_count + 1⟩).map Prod.fst =
         m.map Prod.fst) := by
  constructor
  · exact runOps_keys_nodup cooldown ops [] (by simp)
  · intro m camera person objects t st hlook hne
    constructor
    · simp [should_alert, hlook, fun h => hne h]
    · refine keys_aset_of_mem m camera _ ?_
      have : ¬ alookup m camera = none := by simp [hlook]
      rw [alookup_eq_none_iff] at this
      exact not_not.mp this

/-- A tracked state used to instantiate `c8_one_state_per_camera`. -/
def sampleHallState : DetectionState := ⟨"ana", ∅, 0, 1⟩

/-- The replacement state a subject change produces from `sampleHallState`. -/
def sampleRuiState : DetectionState := ⟨"rui", currentObjects [], 10, 1 + 1⟩

/-- Concrete instantiation of `c8_one_state_per_camera`: two observations and a
departure keep the key list duplicate-free, and a subject change at a tracked
camera overwrites the state in place with the counter bumped. -/
theorem c8_witness :
    ((runOps 300 [] [DedupOp.observe "hall" "ana" ["book"] 0,
        DedupOp.observe "porta" "rui" [] 5, DedupOp.markLeft "hall"]).map
      Prod.fst).Nodup ∧
    should_alert 300 [("hall", sampleHallState)] "hall" "rui" [] 10 =
      (true, aset [("hall", sampleHallState)] "hall" sampleRuiState) ∧
    (aset [("hall", sampleHallState)] "hall" sampleRuiState).map Prod.fst =
      [("hall", sampleHallState)].map Prod.fst := by
  refine ⟨(c8_one_state_per_camera 300 _).1, ?_⟩
  exact (c8_one_state_per_camera 300 []).2 [("hall", sampleHallState)]
    "hall" "rui" [] 10 sampleHallState rfl (by decide)

/-! ### `src/smart_alerts.py` -/

/-- The `quiet_hours` configuration section: enabled flag plus a start and an
end time of day, modelled in minutes since midnight (`"%H:%M"` strings in the
source). -/
structure QuietHours where
  enabled : Bool
  start : Nat
  endTime : Nat
deriving DecidableEq

/-- `SmartAlertManager._is_quiet_hours` (smart_alerts.py, lines 129–144):
disabled → false; `start < end` → active when `start ≤ now ≤ end`; otherwise
(window crossing midnight) active when `now ≥ start` or `now ≤ end`. -/
def is_quiet_hours (q : QuietHours) (current_time : Nat) : Bool :=
  if ¬ q.enabled then false
  else if q.start < q.endTime then
    decide (q.start ≤ current_time) && decide (current_time ≤ q.endTime)
  else
    decide (current_time ≥ q.start) || decide (current_time ≤ q.endTime)

/-- `SmartAlertManager._is_emergency` (smart_alerts.py, lines 146–150):
case-insensitive substring match of a fixed emergency vocabulary against the
description. `leadsWith`/`hasSubList` implement Python's `in` on strings. -/
def leadsWith : List Char → List Char → Bool
  | [], _ => true
  | _ :: _, [] => false
  | a :: as, b :: bs => a == b && leadsWith as bs

def hasSubList (pat : List Char) : List Char → Bool
  | [] => leadsWith pat []
  | c :: cs => leadsWith pat (c :: cs) || hasSubList pat cs

def containsSub (s pat : String) : Bool :=
  hasSubList pat.data s.data

def is_emergency (description : String) : Bool :=
  ["unknown", "intrusion", "break", "glass", "anomaly"].any
    (fun e => containsSub description.toLower e)

/-- The mutable maps of `SmartAlertManager`: `last_alerts` (key → instant of
the last alert) and `active_persons` (key → instant the person was tracked as
active). Keys are `"{camera}:{person}"` strings, except for the bare
`"unknown"` key read by `_should_alert_unknown`. The `daily_images` digest
buffer is not modelled: no claim concerns it and it feeds no decision. -/
structure SmartAlertState where
  last_alerts : List (String × Int)
  active_persons : List (String × Int)
deriving DecidableEq

/-- The `f"{camera}:{person}"` tracking key. -/
def pkey (camera person : String) : String :=
  camera ++ ":" ++ person

/-- `SmartAlertManager._is_new_person` (smart_alerts.py, lines 79–94). -/
def is_new_person (cooldown : Int) (st : SmartAlertState)
    (camera person : String) (now : Int) : Bool :=
  match alookup st.active_persons (pkey camera person) with
  | some _ => false
  | none =>
    match alookup st.last_alerts (pkey camera person) with
    | none => true
    | some last_seen => decide (¬ (now - last_seen < cooldown))

/-- `SmartAlertManager._has_person_left` (smart_alerts.py, lines 96–109):
tracked and not refreshed for more than 120 s. -/
def has_person_left (st : SmartAlertState) (camera person : String)
    (now : Int) : Bool :=
  match alookup st.active_persons (pkey camera person) with
  | none => false
  | some last_seen => decide (now - last_seen > 120)

/-- `SmartAlertManager._track_person` (smart_alerts.py, lines 111–115). -/
def track_person (st : SmartAlertState) (camera person : String)
    (now : Int) : SmartAlertState :=
  ⟨aset st.last_alerts (pkey camera person) now,
   aset st.active_persons (pkey camera person) now⟩

/-- `SmartAlertManager._remove_person` (smart_alerts.py, lines 117–121). -/
def remove_person (st : SmartAlertState) (camera person : String) :
    SmartAlertState :=
  ⟨st.last_alerts, aremove st.active_persons (pkey camera person)⟩

/-- `SmartAlertManager._should_alert_unknown` (smart_alerts.py, lines 123–127):
reads `last_alerts['unknown']`, defaulting to `datetime.min`; an absent entry
(arbitrarily far in the past relative to any wall-clock instant) makes the
`time_since > 300` test true. -/
def should_alert_unknown (st : SmartAlertState) (now : Int) : Bool :=
  match alookup st.last_alerts "unknown" with
  | none => true
  | some last_unknown => decide (now - last_unknown > 300)

/-- The alert messages `process_detection` can emit (arrival, departure,
unknown-person warning); the formatted strings carry no further state. -/
inductive AlertMsg where
  | arrival (camera person : String)
  | departure (camera person : String)
  | unknownWarning (camera : String)
deriving DecidableEq

/-- `SmartAlertManager.process_detection` (smart_alerts.py, lines 33–77):
quiet-hours gate (with emergency bypass), then new-person arrival, then
departure, then the unknown-person branch; otherwise no alert. `cooldown` is
`smart_filtering.min_time_between_alerts` (default 300). -/
def process_detection (q : QuietHours) (cooldown : Int) (st : SmartAlertState)
    (camera person description : String) (now_minutes : Nat) (now : Int) :
    Option AlertMsg × SmartAlertState :=
  if is_quiet_hours q now_minutes && ¬ is_emergency description then
    (none, st)
  else if is_new_person cooldown st camera person now then
    (some (.arrival camera person), track_person st camera person now)
  else if has_person_left st camera person now then
    (some (.departure camera person), remove_person st camera person)
  else if (person = "unknown" || person = "desconhecido") &&
      should_alert_unknown st now then
    (some (.unknownWarning camera), st)
  else
    (none, st)

/-- C3: with quiet hours enabled and a window crossing midnight
(start > end), `_is_quiet_hours` holds exactly when the time of day is ≥ start
or ≤ end; for the 23:00–07:00 window it is true at 23:30 and 06:59 and false
at 12:00. -/
theorem c3_quiet_hours_cross_midnight (q : QuietHours) (t : Nat)
    (hen : q.enabled = true) (hcross : q.endTime < q.start) :
    (is_quiet_hours q t = (decide (q.start ≤ t) || decide (t ≤ q.endTime))) ∧
    is_quiet_hours ⟨true, 23 * 60, 7 * 60⟩ (23 * 60 + 30) = true ∧
    is_quiet_hours ⟨true, 23 * 60, 7 * 60⟩ (6 * 60 + 59) = true ∧
    is_quiet_hours ⟨true, 23 * 60, 7 * 60⟩ (12 * 60) = false := by
  refine ⟨?_, by decide, by decide, by decide⟩
  rw [is_quiet_hours, if_neg (by simp [hen]), if_neg (by omega)]

/-- Concrete instantiation of `c3_quiet_hours_cross_midnight` at the
23:00–07:00 window and 01:00. -/
theorem c3_witness :
    (is_quiet_hours ⟨true, 23 * 60, 7 * 60⟩ 60 =
      (decide (23 * 60 ≤ 60) || decide (60 ≤ 7 * 60))) ∧
    is_quiet_hours ⟨true, 23 * 60, 7 * 60⟩ (23 * 60 + 30) = true ∧
    is_quiet_hours ⟨true, 23 * 60, 7 * 60⟩ (6 * 60 + 59) = true ∧
    is_quiet_hours ⟨true, 23 * 60, 7 * 60⟩ (12 * 60) = false :=
  c3_quiet_hours_cross_midnight ⟨true, 23 * 60, 7 * 60⟩ 60 rfl (by decide)

/-- C2 (code-bug evidence): `last_alerts['unknown']` is never written —
`_track_person` writes `"{camera}:{person}"` keys and the unknown-alert branch
updates nothing — so `_should_alert_unknown` always sees `datetime.min` and
never suppresses. Concretely: an unknown person at camera "porta" is tracked at
t = 0; the detections at t = 10 and t = 11 each emit an unknown-person alert,
1 second apart, with the per-(camera,subject) cooldown at 300 s, contradicting
the claimed independent one-per-300 s unknown-subject rate limit. -/
theorem c2_unknown_rate_limit_never_engages :
    (process_detection ⟨false, 0, 0⟩ 300
        (process_detection ⟨false, 0, 0⟩ 300 ⟨[], []⟩
          "porta" "unknown" "pessoa na porta" 600 0).snd
        "porta" "unknown" "pessoa na porta" 600 10).fst =
      some (AlertMsg.unknownWarning "porta") ∧
    (process_detection ⟨false, 0, 0⟩ 300
        (process_detection ⟨false, 0, 0⟩ 300
          (process_detection ⟨false, 0, 0⟩ 300 ⟨[], []⟩
            "porta" "unknown" "pessoa na porta" 600 0).snd
          "porta" "unknown" "pessoa na porta" 600 10).snd
        "porta" "unknown" "pessoa na porta" 600 11).fst =
      some (AlertMsg.unknownWarning "porta") ∧
    alookup ((process_detection ⟨false, 0, 0⟩ 300
        (process_detection ⟨false, 0, 0⟩ 300 ⟨[], []⟩
          "porta" "unknown" "pessoa na porta" 600 0).snd
        "porta" "unknown" "pessoa na porta" 600 10).snd).last_alerts
      "unknown" = none := by
  refine ⟨?_, ?_, ?_⟩ <;> rfl

/-- Process a run of detections of the same person at the same camera at the
given instants, collecting the emitted alerts. `now_minutes` is held fixed:
the quiet-hours clock plays no role when quiet hours are disabled. -/
def processRun (q : QuietHours) (cooldown : Int) (camera person description : String)
    (now_minutes : Nat) :
    SmartAlertState → List Int → List (Option AlertMsg) × SmartAlertState
  | st, [] => ([], st)
  | st, t :: ts =>
    let r := process_detection q cooldown st camera person description now_minutes t
    let rest := processRun q cooldown camera person description now_minutes r.snd ts
    (r.fst :: rest.fst, rest.snd)

theorem process_detection_noop (q : QuietHours) (cooldown : Int)
    (st : SmartAlertState) (camera person description : String)
    (now_minutes : Nat) (t0 t : Int)
    (hq : q.enabled = false)
    (hp1 : person ≠ "unknown") (hp2 : person ≠ "desconhecido")
    (hact : alookup st.active_persons (pkey camera person) = some t0)
    (ht : t - t0 ≤ 120) :
    process_detection q cooldown st camera person description now_minutes t =
      (none, st) := by
  have hquiet : is_quiet_hours q now_minutes = false := by
    simp [is_quiet_hours, hq]
  have hnew : is_new_person cooldown st camera person t = false := by
    simp [is_new_person, hact]
  have hleft : has_person_left st camera person t = false := by
    simp [has_person_left, hact]
    omega
  simp [process_detection, hquiet, hnew, hleft, hp1, hp2]

theorem processRun_noop (q : QuietHours) (cooldown : Int)
    (camera person description : String) (now_minutes : Nat) (t0 : Int)
    (hq : q.enabled = false)
    (hp1 : person ≠ "unknown") (hp2 : person ≠ "desconhecido") :
    ∀ (ts : List Int) (st : SmartAlertState),
      alookup st.active_persons (pkey camera person) = some t0 →
      (∀ t ∈ ts, t - t0 ≤ 120) →
      processRun q cooldown camera person description now_minutes st ts =
        (List.replicate ts.length none, st) := by
  intro ts
  induction ts with
  | nil => intro st _ _; simp [processRun]
  | cons t ts ih =>
    intro st hact hts
    have hstep := process_detection_noop q cooldown st camera person description
      now_minutes t0 t hq hp1 hp2 hact (hts t (by simp))
    have hrest := ih st hact (fun t' ht' => hts t' (by simp [ht']))
    simp [processRun, hstep, hrest, List.replicate_succ]

/-- C10: once a person's arrival alert fires at `t0`, the active-presence
timestamp for the `(camera, person)` key is written once and never refreshed:
any further detections of the same person at the same camera within 120 s of
`t0` emit nothing and leave the manager's state untouched (the tracked
timestamp stays `t0`), and the first detection more than 120 s after `t0`
emits a departure ("left") alert and removes the key from tracking — even
though detections never stopped. Quiet hours are disabled and the person is a
known label. -/
theorem c10_presence_timestamp_never_refreshed (q : QuietHours) (cooldown : Int)
    (st0 : SmartAlertState) (camera person description : String)
    (now_minutes : Nat) (t0 : Int) (ts : List Int) (t1 : Int)
    (hq : q.enabled = false)
    (hp1 : person ≠ "unknown") (hp2 : person ≠ "desconhecido")
    (hcool : is_new_person cooldown st0 camera person t0 = true)
    (hts : ∀ t ∈ ts, t - t0 ≤ 120)
    (ht1 : t1 - t0 > 120) :
    (process_detection q cooldown st0 camera person description now_minutes t0).fst =
      some (AlertMsg.arrival camera person) ∧
    alookup (process_detection q cooldown st0 camera person description
        now_minutes t0).snd.active_persons (pkey camera person) = some t0 ∧
    processRun q cooldown camera person description now_minutes
        (process_detection q cooldown st0 camera person description
          now_minutes t0).snd ts =
      (List.replicate ts.length none,
       (process_detection q cooldown st0 camera person description
         now_minutes t0).snd) ∧
    (process_detection q cooldown
        (process_detection q cooldown st0 camera person description
          now_minutes t0).snd camera person description now_minutes t1).fst =
      some (AlertMsg.departure camera person) ∧
    alookup (process_detection q cooldown
        (process_detection q cooldown st0 camera person description
          now_minutes t0).snd camera person description now_minutes t1).snd.active_persons
      (pkey camera person) = none := by
  have hquiet : is_quiet_hours q now_minutes = false := by
    simp [is_quiet_hours, hq]
  have harrive : process_detection q cooldown st0 camera person description
      now_minutes t0 =
      (some (.arrival camera person), track_person st0 camera person t0) := by
    simp [process_detection, hquiet, hcool]
  have htrack : alookup (track_person st0 camera person t0).active_persons
      (pkey camera person) = some t0 :=
    alookup_aset_self st0.active_persons (pkey camera person) t0
  have hleft : has_person_left (track_person st0 camera person t0) camera person
      t1 = true := by
    simp [has_person_left, htrack]
    omega
  have hnotnew : is_new_person cooldown (track_person st0 camera person t0)
      camera person t1 = false := by
    simp [is_new_person, htrack]
  have hdepart : process_detection q cooldown
      (track_person st0 camera person t0) camera person description
      now_minutes t1 =
      (some (.departure camera person),
       remove_person (track_person st0 camera person t0) camera person) := by
    simp [process_detection, hquiet, hnotnew, hleft]
  refine ⟨by rw [harrive], by rw [harrive]; exact htrack, ?_, ?_, ?_⟩
  · rw [harrive]
    exact processRun_noop q cooldown camera person description now_minutes t0
      hq hp1 hp2 ts _ htrack hts
  · rw [harrive, hdepart]
  · rw [harrive, hdepart]
    exact alookup_aremove_self _ _

/-- Concrete instantiation of `c10_presence_timestamp_never_refreshed`: "ana"
arrives at "hall" at t = 0, is re-detected at t = 60 and t = 119 with no
alert, and the detection at t = 121 yields a departure alert that removes her
from tracking. -/
theorem c10_witness :
    (process_detection ⟨false, 0, 0⟩ 300 ⟨[], []⟩ "hall" "ana" "ana na sala"
        600 0).fst = some (AlertMsg.arrival "hall" "ana") ∧
    alookup (process_detection ⟨false, 0, 0⟩ 300 ⟨[], []⟩ "hall" "ana"
        "ana na sala" 600 0).snd.active_persons (pkey "hall" "ana") = some 0 ∧
    processRun ⟨false, 0, 0⟩ 300 "hall" "ana" "ana na sala" 600
        (process_detection ⟨false, 0, 0⟩ 300 ⟨[], []⟩ "hall" "ana"
          "ana na sala" 600 0).snd [60, 119] =
      (List.replicate 2 none,
       (process_detection ⟨false, 0, 0⟩ 300 ⟨[], []⟩ "hall" "ana"
         "ana na sala" 600 0).snd) ∧
    (process_detection ⟨false, 0, 0⟩ 300
        (process_detection ⟨false, 0, 0⟩ 300 ⟨[], []⟩ "hall" "ana"
          "ana na sala" 600 0).snd "hall" "ana" "ana na sala" 600 121).fst =
      some (AlertMsg.departure "hall" "ana") ∧
    alookup (process_detection ⟨false, 0, 0⟩ 300
        (process_detection ⟨false, 0, 0⟩ 300 ⟨[], []⟩ "hall" "ana"
          "ana na sala" 600 0).snd "hall" "ana" "ana na sala" 600
        121).snd.active_persons (pkey "hall" "ana") = none :=
  c10_presence_timestamp_never_refreshed ⟨false, 0, 0⟩ 300 ⟨[], []⟩ "hall"
    "ana" "ana na sala" 600 0 [60, 119] 121 rfl (by decide) (by decide) rfl
    (by decide) (by decide)

/-! ### `src/behavioral_analyzer.py` -/

/-- Hour of day of a timestamp (seconds since a midnight at the start of a
week, as `datetime.hour` is a pure function of the instant). -/
def tsHour (t : Int) : Int := (t.ediv 3600).emod 24

/-- Day of week of a timestamp, `datetime.weekday()` style (0–6). -/
def tsWeekday (t : Int) : Int := (t.ediv 86400).emod 7

/-- `MovementEvent` (behavioral_analyzer.py, lines 15–41). -/
structure MovementEvent where
  timestamp : Int
  camera : String
  person_id : Option String
  position : ℚ × ℚ
  confidence : ℚ
deriving DecidableEq

/-- `BehavioralPattern` (behavioral_analyzer.py, lines 44–64). -/
structure BehavioralPattern where
  person_id : Option String
  camera : String
  hour_of_day : Int
  day_of_week : Int
  avg_duration_minutes : ℚ
  frequency_score : ℚ
  typical_positions : List (ℚ × ℚ)
deriving DecidableEq

/-- Python's `person_id or "unknown"`: `None` and the empty string both fall
back to `"unknown"`. -/
def pidOr (p : Option String) : String :=
  match p with
  | none => "unknown"
  | some s => if s = "" then "unknown" else s

/-- The grouping key of `build_baseline`: (subject-or-unknown, camera,
hour of day, day of week). -/
structure Bucket where
  pid : String
  camera : String
  hour : Int
  dow : Int
deriving DecidableEq

def bucketOf (e : MovementEvent) : Bucket :=
  ⟨pidOr e.person_id, e.camera, tsHour e.timestamp, tsWeekday e.timestamp⟩

/-- `f"{person_id}_{camera}_{hour}_{dow}"`, the pattern-map key. -/
def patternKey (b : Bucket) : String :=
  b.pid ++ "_" ++ b.camera ++ "_" ++ toString b.hour ++ "_" ++ toString b.dow

/-- The key `detect_anomaly` looks up for an event (same construction). -/
def anomalyKey (e : MovementEvent) : String :=
  patternKey (bucketOf e)

/-- The occurrence list of one (person, camera, hour, weekday) group, in
event-log order (the row order of the dataframe iteration). -/
def occurrencesIn (events : List MovementEvent) (b : Bucket) : List MovementEvent :=
  events.filter (fun e => bucketOf e = b)

def minTs : List MovementEvent → Int
  | [] => 0
  | e :: es => (es.map (fun x => x.timestamp)).foldl min e.timestamp

def maxTs : List MovementEvent → Int
  | [] => 0
  | e :: es => (es.map (fun x => x.timestamp)).foldl max e.timestamp

/-- `(df['timestamp'].max() - df['timestamp'].min()).days`: the floored
whole-day span of the analyzed events (`timedelta.days` floors). -/
def spanDaysOf (events : List MovementEvent) : Int :=
  Int.fdiv (maxTs events - minTs events) 86400

/-- Python's `total_days or 1`: a zero span counts as one day. -/
def orOne (d : Int) : Int := if d = 0 then 1 else d

/-- The frequency score of `build_baseline` (behavioral_analyzer.py, lines
232–235): `min(occurrences / (total_days or 1) / 10, 1.0)`. -/
def frequency_score (occurrences : Nat) (total_days : Int) : ℚ :=
  min ((occurrences : ℚ) / ((orOne total_days : Int) : ℚ) / 10) 1

/-- Ascending insertion sort on timestamps (`sorted(...)`). -/
def insertSorted (t : Int) : List Int → List Int
  | [] => [t]
  | a :: as => if t ≤ a then t :: a :: as else a :: insertSorted t as

def sortTs : List Int → List Int
  | [] => []
  | a :: as => insertSorted a (sortTs as)

/-- Consecutive deltas of a timestamp list, in minutes. -/
def consecutiveDeltas : List Int → List ℚ
  | a :: b :: rest => (((b - a : Int) : ℚ) / 60) :: consecutiveDeltas (b :: rest)
  | _ => []

/-- Average of the consecutive deltas under 30 minutes, 0 when none
(behavioral_analyzer.py, lines 222–230). -/
def avgDuration (ts : List Int) : ℚ :=
  let ds := (consecutiveDeltas (sortTs ts)).filter (fun d => d < 30)
  if ds = [] then 0 else ds.sum / (ds.length : ℚ)

/-- One `BehavioralPattern` entry of `build_baseline` (lines 236–246). -/
def mkPattern (b : Bucket) (occ : List MovementEvent) (total_days : Int) :
    BehavioralPattern :=
  ⟨if b.pid = "unknown" then none else some b.pid,
   b.camera, b.hour, b.dow,
   avgDuration (occ.map (fun e => e.timestamp)),
   frequency_score occ.length total_days,
   (occ.take 10).map (fun e => e.position)⟩

/-- The recomputed pattern map of `build_baseline` (lines 203–248): one entry
per group with at least two occurrences. -/
def buildPatterns (events : List MovementEvent) :
    List (String × BehavioralPattern) :=
  ((events.map bucketOf).dedup).filterMap (fun b =>
    if (occurrencesIn events b).length < 2 then none
    else some (patternKey b,
      mkPattern b (occurrencesIn events b) (spanDaysOf events)))

/-- The in-memory state of `BehavioralAnalyzer`: the event log, the pattern
map, and the configured `min_baseline_days`. Disk persistence mirrors the
in-memory state and is not modelled. -/
structure BehavioralAnalyzer where
  events : List MovementEvent
  patterns : List (String × BehavioralPattern)
  min_baseline_days : Int
deriving DecidableEq

/-- `BehavioralAnalyzer.record_movement` (behavioral_analyzer.py, lines
131–165): build the event from the bbox center and append it to the log. -/
def record_movement (a : BehavioralAnalyzer) (camera : String) (bbox : List ℚ)
    (confidence : ℚ) (person_id : Option String) (timestamp : Int) :
    BehavioralAnalyzer × MovementEvent :=
  let x_center := (bbox.getD 0 0 + bbox.getD 2 0) / 2
  let y_center := (bbox.getD 1 0 + bbox.getD 3 0) / 2
  let event : MovementEvent :=
    ⟨timestamp, camera, person_id, (x_center, y_center), confidence⟩
  (⟨a.events ++ [event], a.patterns, a.min_baseline_days⟩, event)

/-- The time-window filter of `build_baseline` (lines 181–183): Python's
`timedelta(days=days) if days else None` treats both `None` and `0` as "no
cutoff"; otherwise keep events with `timestamp ≥ now - days`. -/
def windowEvents (events : List MovementEvent) (days : Option Int) (now : Int) :
    List MovementEvent :=
  match days with
  | none => events
  | some d =>
    if d = 0 then events
    else events.filter (fun e => now - d * 86400 ≤ e.timestamp)

/-- `BehavioralAnalyzer.build_baseline` (behavioral_analyzer.py, lines
167–263): early return (patterns untouched) with no events or an empty
window, otherwise replace the pattern map with the recomputation from the
windowed events. The returned summary dict is not modelled. -/
def build_baseline (a : BehavioralAnalyzer) (days : Option Int) (now : Int) :
    BehavioralAnalyzer :=
  if a.events = [] then a
  else if windowEvents a.events days now = [] then a
  else ⟨a.events, buildPatterns (windowEvents a.events days now),
        a.min_baseline_days⟩

/-- `BehavioralAnalyzer.has_sufficient_baseline` (behavioral_analyzer.py,
lines 364–370): no events → false; otherwise the floored day difference from
the first to the last event of the log (in record order, `events[-1] -
events[0]`) must reach `min_baseline_days`. -/
def has_sufficient_baseline (a : BehavioralAnalyzer) : Bool :=
  match a.events with
  | [] => false
  | e :: es =>
    decide (a.min_baseline_days ≤
      Int.fdiv ((es.getLastD e).timestamp - e.timestamp) 86400)

/-- A movement event of "ana" at camera "hall" at instant `t`. -/
def evAt (t : Int) : MovementEvent := ⟨t, "hall", some "ana", (1/2, 1/2), 9/10⟩

/-- C7 counterexample: a log recorded out of chronological order — newest
event first (t = 864000 s, i.e. day 10), oldest second (t = 0). The
oldest-to-newest span is 10 days ≥ 7 so the claim requires `true`, but the
code computes `events[-1] - events[0] = -10` days and returns `false`. -/
theorem c7_counterexample :
    has_sufficient_baseline ⟨[evAt 864000, evAt 0], [], 7⟩ = false ∧
    (7 : Int) ≤ Int.fdiv (maxTs [evAt 864000, evAt 0] -
      minTs [evAt 864000, evAt 0]) 86400 := by
  constructor
  · decide
  · decide

/-- C7 (amended): `has_sufficient_baseline` is false with no events, and for a
nonempty log it is true exactly when the floored whole-day difference between
the last and the first recorded events — in recording order, not
oldest-to-newest — reaches `min_baseline_days`. -/
theorem c7_sufficient_baseline_record_order (a : BehavioralAnalyzer) :
    (a.events = [] → has_sufficient_baseline a = false) ∧
    ∀ (e : MovementEvent) (es : List MovementEvent), a.events = e :: es →
      (has_sufficient_baseline a = true ↔
        a.min_baseline_days ≤
          Int.fdiv ((es.getLastD e).timestamp - e.timestamp) 86400) := by
  obtain ⟨evs, pats, mbd⟩ := a
  constructor
  · intro h
    simp only at h
    subst h
    rfl
  · intro e es h
    simp only at h
    subst h
    simp [has_sufficient_baseline]

/-- Concrete instantiation of `c7_sufficient_baseline_record_order`: two
events exactly 7 days apart in chronological record order reach the default
minimum. -/
theorem c7_witness :
    has_sufficient_baseline ⟨[evAt 0, evAt 604800], [], 7⟩ = true :=
  ((c7_sufficient_baseline_record_order ⟨[evAt 0, evAt 604800], [], 7⟩).2
    (evAt 0) [evAt 604800] rfl).mpr (by decide)

/-- A pattern value used in the C9 counterexample. -/
def samplePattern : BehavioralPattern := ⟨some "ana", "hall", 9, 0, 0, 1/2, [(1/2, 1/2)]⟩

/-- C9 counterexample: `build_baseline` on an analyzer with an empty event log
returns early and keeps the prior pattern map, whereas recomputing from the
(empty) windowed events would give the empty map — so the pattern map is not
always replaced wholesale by the recomputation. -/
theorem c9_counterexample :
    (build_baseline ⟨[], [("k", samplePattern)], 7⟩ none 0).patterns =
      [("k", samplePattern)] ∧
    buildPatterns (windowEvents ([] : List MovementEvent) none 0) = [] ∧
    ([("k", samplePattern)] : List (String × BehavioralPattern)) ≠ [] := by
  refine ⟨rfl, rfl, by decide⟩

theorem windowEvents_nil (days : Option Int) (now : Int) :
    windowEvents [] days now = [] := by
  cases days with
  | none => rfl
  | some d =>
    by_cases h : d = 0
    · simp [windowEvents, h]
    · simp [windowEvents, h]

/-- C9 (amended): `record_movement` appends the new event to the event log and
leaves the pattern map unchanged; and whenever the (optionally windowed) event
list is nonempty, `build_baseline` replaces the prior pattern map wholesale
with the map recomputed from those events alone — the result never depends on
or patches entries of the old map. (With no events in the window the source
returns early and keeps the old map, per the counterexample.) -/
theorem c9_record_appends_build_replaces :
    (∀ (a : BehavioralAnalyzer) (camera : String) (bbox : List ℚ)
       (confidence : ℚ) (person_id : Option String) (timestamp : Int),
       ((record_movement a camera bbox confidence person_id timestamp).fst).patterns =
         a.patterns ∧
       ((record_movement a camera bbox confidence person_id timestamp).fst).events =
         a.events ++ [(record_movement a camera bbox confidence person_id timestamp).snd]) ∧
    (∀ (a : BehavioralAnalyzer) (days : Option Int) (now : Int),
       windowEvents a.events days now ≠ [] →
       (build_baseline a days now).patterns =
         buildPatterns (windowEvents a.events days now)) := by
  constructor
  · intro a camera bbox confidence person_id timestamp
    exact ⟨rfl, rfl⟩
  · intro a days now hw
    have hev : a.events ≠ [] := by
      intro h
      exact hw (by rw [h, windowEvents_nil])
    rw [build_baseline, if_neg hev, if_neg hw]

/-- Concrete instantiation of `c9_record_appends_build_replaces`: recording
into an analyzer holding a stale pattern, then rebuilding over a nonempty
window, yields exactly the recomputed map. -/
theorem c9_witness :
    ((record_movement ⟨[], [("k", samplePattern)], 7⟩ "hall" [0, 0, 1, 1]
        (9/10) (some "ana") 0).fst).patterns = [("k", samplePattern)] ∧
    (build_baseline ⟨[evAt 0, evAt 60], [("k", samplePattern)], 7⟩ none
        0).patterns = buildPatterns (windowEvents [evAt 0, evAt 60] none 0) :=
  ⟨(c9_record_appends_build_replaces.1 ⟨[], [("k", samplePattern)], 7⟩ "hall"
      [0, 0, 1, 1] (9/10) (some "ana") 0).1,
   c9_record_appends_build_replaces.2 ⟨[evAt 0, evAt 60], [("k", samplePattern)], 7⟩
      none 0 (by decide)⟩

/-- C4: a pattern's frequency score is the clamped normalized occurrence rate
`min(occurrences / max(1, dataset-span-days) / 10, 1)`; it is monotonically
non-decreasing in the occurrence count with the span held fixed, always lies
in [0,1], equals 0.5 for 5 occurrences over 1 day and 1.0 for 50 occurrences
over 1 day; and every entry of a built pattern map carries the score of its
group's occurrence count over the dataset's span. -/
theorem c4_frequency_score_clamped (n m : Nat) (d : Int)
    (events : List MovementEvent) (k : String) (p : BehavioralPattern)
    (hd : 0 ≤ d) (hnm : n ≤ m)
    (hmem : (k, p) ∈ buildPatterns events) :
    frequency_score n d = min ((n : ℚ) / ((max 1 d : Int) : ℚ) / 10) 1 ∧
    frequency_score n d ≤ frequency_score m d ∧
    (0 ≤ frequency_score n d ∧ frequency_score n d ≤ 1) ∧
    (frequency_score 5 1 = 1/2 ∧ frequency_score 50 1 = 1) ∧
    ∃ b : Bucket, 2 ≤ (occurrencesIn events b).length ∧
      p.frequency_score =
        frequency_score (occurrencesIn events b).length (spanDaysOf events) := by
  have horone : orOne d = max 1 d := by
    rw [orOne]
    by_cases h : d = 0
    · simp [h]
    · rw [if_neg h]
      omega
  have hpos : (0 : ℚ) < ((orOne d : Int) : ℚ) := by
    rw [horone]
    have : (1 : Int) ≤ max 1 d := le_max_left 1 d
    exact_mod_cast lt_of_lt_of_le Int.zero_lt_one this
  refine ⟨?_, ?_, ⟨?_, ?_⟩, ⟨by norm_num [frequency_score, orOne],
    by norm_num [frequency_score, orOne]⟩, ?_⟩
  · rw [frequency_score, horone]
  · rw [frequency_score, frequency_score]
    refine min_le_min ?_ le_rfl
    have hcast : (n : ℚ) ≤ (m : ℚ) := by exact_mod_cast hnm
    have h1 : (n : ℚ) / ((orOne d : Int) : ℚ) ≤ (m : ℚ) / ((orOne d : Int) : ℚ) :=
      (div_le_div_iff_of_pos_right hpos).mpr hcast
    exact (div_le_div_iff_of_pos_right (by norm_num : (0:ℚ) < 10)).mpr h1
  · rw [frequency_score]
    refine le_min ?_ (by norm_num)
    positivity
  · exact min_le_right _ _
  · rcases List.mem_filterMap.mp hmem with ⟨b, _, hf⟩
    by_cases hlen : (occurrencesIn events b).length < 2
    · rw [if_pos hlen] at hf
      exact absurd hf (by simp)
    · rw [if_neg hlen] at hf
      have hp : mkPattern b (occurrencesIn events b) (spanDaysOf events) = p :=
        congrArg Prod.snd (Option.some.inj hf)
      refine ⟨b, by omega, ?_⟩
      rw [← hp]
      rfl

/-- Concrete instantiation of `c4_frequency_score_clamped` at 5 and 50
occurrences over a 1-day span, with a two-event baseline build. -/
theorem c4_witness :
    frequency_score 5 1 = min ((5 : ℚ) / ((max 1 1 : Int) : ℚ) / 10) 1 ∧
    frequency_score 5 1 ≤ frequency_score 50 1 ∧
    (0 ≤ frequency_score 5 1 ∧ frequency_score 5 1 ≤ 1) ∧
    (frequency_score 5 1 = 1/2 ∧ frequency_score 50 1 = 1) ∧
    ∃ b : Bucket, 2 ≤ (occurrencesIn [evAt 0, evAt 60] b).length ∧
      (mkPattern (bucketOf (evAt 0))
          (occurrencesIn [evAt 0, evAt 60] (bucketOf (evAt 0)))
          (spanDaysOf [evAt 0, evAt 60])).frequency_score =
        frequency_score (occurrencesIn [evAt 0, evAt 60] b).length
          (spanDaysOf [evAt 0, evAt 60]) :=
  c4_frequency_score_clamped 5 50 1 [evAt 0, evAt 60]
    (patternKey (bucketOf (evAt 0)))
    (mkPattern (bucketOf (evAt 0))
      (occurrencesIn [evAt 0, evAt 60] (bucketOf (evAt 0)))
      (spanDaysOf [evAt 0, evAt 60]))
    (by decide) (by decide) (List.Mem.head _)

/-- The anomaly objects `detect_anomaly` can return. The human-readable
message and the echoed event are not modelled; `min_dist_sq` carries the
squared minimum distance (the source carries the distance itself — the two
determine each other on nonnegative values). -/
structure Anomaly where
  type : String
  severity : String
  min_dist_sq : Option ℚ
  typical_locations : Option (List String)
deriving DecidableEq

/-- Squared Euclidean distance between two normalized positions. -/
def distSq (p q : ℚ × ℚ) : ℚ := (p.1 - q.1)^2 + (p.2 - q.2)^2

/-- `np.min` of the squared distances from `p` to a nonempty position list. -/
def minDistSq (p : ℚ × ℚ) (q : ℚ × ℚ) (qs : List (ℚ × ℚ)) : ℚ :=
  (qs.map (distSq p)).foldl min (distSq p q)

/-- `BehavioralAnalyzer.detect_anomaly` (behavioral_analyzer.py, lines
265–325) over the pattern map: empty map → `none`; missing bucket → either
`unknown_person` (subject has no pattern at all) or `unusual_time_location`
(with the subject's camera set, modelled as a deduplicated list); bucket
present → `unusual_position` exactly when the minimum distance to the stored
typical positions exceeds 0.3 (compared in squared form). -/
def detect_anomaly (patterns : List (String × BehavioralPattern))
    (event : MovementEvent) : Option Anomaly :=
  if patterns = [] then none
  else
    match alookup patterns (anomalyKey event) with
    | none =>
      if patterns.filter (fun kp => kp.2.person_id = event.person_id) = [] then
        some ⟨"unknown_person", "low", none, none⟩
      else
        some ⟨"unusual_time_location", "medium", none,
          some (((patterns.filter
            (fun kp => kp.2.person_id = event.person_id)).map
              (fun kp => kp.2.camera)).dedup)⟩
    | some pattern =>
      match pattern.typical_positions with
      | [] => none
      | q :: qs =>
        if minDistSq event.position q qs > (3/10 : ℚ)^2 then
          some ⟨"unusual_position", "low",
            some (minDistSq event.position q qs), none⟩
        else none

/-- C5: when the event's exact bucket has no pattern, `detect_anomaly`
classifies `unknown_person` (severity low) if the subject owns no pattern
anywhere, and `unusual_time_location` (severity medium) with the subject's
camera set otherwise; and an empty pattern map always yields `none`. -/
theorem c5_missing_bucket_classification
    (patterns : List (String × BehavioralPattern)) (event : MovementEvent)
    (hkey : alookup patterns (anomalyKey event) = none) :
    (patterns = [] → detect_anomaly patterns event = none) ∧
    (patterns ≠ [] →
      (patterns.filter (fun kp => kp.2.person_id = event.person_id) = [] →
        detect_anomaly patterns event =
          some ⟨"unknown_person", "low", none, none⟩) ∧
      (patterns.filter (fun kp => kp.2.person_id = event.person_id) ≠ [] →
        detect_anomaly patterns event =
          some ⟨"unusual_time_location", "medium", none,
            some (((patterns.filter
              (fun kp => kp.2.person_id = event.person_id)).map
                (fun kp => kp.2.camera)).dedup)⟩)) := by
  constructor
  · intro h
    rw [detect_anomaly, if_pos h]
  · intro hne
    constructor
    · intro hfil
      rw [detect_anomaly, if_neg hne]
      simp only [hkey]
      rw [if_pos hfil]
    · intro hfil
      rw [detect_anomaly, if_neg hne]
      simp only [hkey]
      rw [if_neg hfil]

/-- Concrete instantiation of `c5_missing_bucket_classification`: a map
holding only a pattern of "rui" classifies an event of "ana" (whose bucket and
subject are absent) as `unknown_person` with severity low. -/
theorem c5_witness :
    detect_anomaly [("k", ⟨some "rui", "porta", 9, 0, 0, 1/2, []⟩)] (evAt 0) =
      some ⟨"unknown_person", "low", none, none⟩ :=
  ((c5_missing_bucket_classification
      [("k", ⟨some "rui", "porta", 9, 0, 0, 1/2, []⟩)] (evAt 0)
      (by decide)).2 (by decide)).1 (by decide)

theorem foldl_min_le_init (l : List ℚ) (a : ℚ) : l.foldl min a ≤ a := by
  induction l generalizing a with
  | nil => exact le_rfl
  | cons b l ih => exact le_trans (ih (min a b)) (min_le_left a b)

theorem foldl_min_le_mem (l : List ℚ) :
    ∀ (a x : ℚ), x ∈ l → l.foldl min a ≤ x := by
  induction l with
  | nil => intro a x hx; cases hx
  | cons b l ih =>
    intro a x hx
    rcases List.mem_cons.mp hx with h | h
    · subst h
      exact le_trans (foldl_min_le_init l (min a x)) (min_le_right a x)
    · exact ih (min a b) x h

theorem minDistSq_le (p : ℚ × ℚ) (q : ℚ × ℚ) (qs : List (ℚ × ℚ))
    (r : ℚ × ℚ) (hr : r ∈ q :: qs) : minDistSq p q qs ≤ distSq p r := by
  rcases List.mem_cons.mp hr with h | h
  · subst h
    exact foldl_min_le_init _ _
  · exact foldl_min_le_mem _ _ _ (List.mem_map_of_mem (distSq p) h)

/-- C6: when the event's bucket has a pattern with stored typical positions,
`detect_anomaly` returns `none` whenever the minimum squared distance to the
stored positions is at most 0.3² (in particular whenever some stored position
lies within 0.1, squared), and returns an `unusual_position` anomaly of
severity low carrying that minimum whenever it exceeds 0.3² (in particular at
minimum distance 0.5). -/
theorem c6_position_threshold (patterns : List (String × BehavioralPattern))
    (event : MovementEvent) (pattern : BehavioralPattern)
    (q : ℚ × ℚ) (qs : List (ℚ × ℚ))
    (hkey : alookup patterns (anomalyKey event) = some pattern)
    (hpos : pattern.typical_positions = q :: qs) :
    (minDistSq event.position q qs ≤ (3/10 : ℚ)^2 →
      detect_anomaly patterns event = none) ∧
    ((3/10 : ℚ)^2 < minDistSq event.position q qs →
      detect_anomaly patterns event =
        some ⟨"unusual_position", "low",
          some (minDistSq event.position q qs), none⟩) ∧
    ((∃ r ∈ q :: qs, distSq event.position r ≤ (1/10 : ℚ)^2) →
      detect_anomaly patterns event = none) ∧
    (minDistSq event.position q qs = (5/10 : ℚ)^2 →
      detect_anomaly patterns event =
        some ⟨"unusual_position", "low", some ((5/10 : ℚ)^2), none⟩) := by
  have hne : patterns ≠ [] := by
    intro h
    subst h
    exact Option.noConfusion hkey
  have hnear : minDistSq event.position q qs ≤ (3/10 : ℚ)^2 →
      detect_anomaly patterns event = none := by
    intro hle
    rw [detect_anomaly, if_neg hne]
    simp only [hkey, hpos]
    rw [if_neg (not_lt.mpr hle)]
  have hfar : (3/10 : ℚ)^2 < minDistSq event.position q qs →
      detect_anomaly patterns event =
        some ⟨"unusual_position", "low",
          some (minDistSq event.position q qs), none⟩ := by
    intro hlt
    rw [detect_anomaly, if_neg hne]
    simp only [hkey, hpos]
    rw [if_pos hlt]
  refine ⟨hnear, hfar, ?_, ?_⟩
  · rintro ⟨r, hr, hd⟩
    refine hnear (le_trans (minDistSq_le event.position q qs r hr) ?_)
    refine le_trans hd (by norm_num)
  · intro heq
    rw [hfar (by rw [heq]; norm_num), heq]

/-- Concrete instantiation of `c6_position_threshold`: a stored typical
position 0.02 away from the event (squared distance 1/2500 ≤ 0.3²) is not
flagged. -/
theorem c6_witness :
    detect_anomaly [(anomalyKey (evAt 0),
        ⟨some "ana", "hall", 0, 0, 0, 1/2, [(1/2, 52/100)]⟩)] (evAt 0) =
      none :=
  (c6_position_threshold [(anomalyKey (evAt 0),
      ⟨some "ana", "hall", 0, 0, 0, 1/2, [(1/2, 52/100)]⟩)] (evAt 0)
    ⟨some "ana", "hall", 0, 0, 0, 1/2, [(1/2, 52/100)]⟩ (1/2, 52/100) []
    rfl rfl).1 (by norm_num [minDistSq, distSq, evAt])

end VigilHome
